import Mathlib

/-!
Verification of the BrainFlowCHOP signal pipeline (src/BrainFlowCHOP.py).

Shallow embedding conventions:
* Python floats are modelled as rationals (ℚ); NaN is modelled by `none` in
  `Option ℚ` where the code tests `np.isnan`.
* Python strings are modelled as `List Char`; `str.split()` and prefix tests
  are re-implemented faithfully.
* The numpy FFT is modelled as the textbook DFT over an arbitrary commutative
  ring with the twiddle factor `ω` (for numpy, `ω = exp (-2 π i / N)`), and the
  magnitude `np.abs` as an arbitrary pointwise map; the claims about the
  spectral stage concern shapes and truncation, which do not depend on the
  numeric values.
* The control flow of `onCook` (which init step raises, which exceptions are
  caught) is modelled as a function from fault flags and the persisted global
  state to the next state and an outcome.
-/

namespace BrainFlowCHOP

/-! ### Adaptive (Kalman) filter, lines 21-31 -/

/-- Prior estimate actually used by `kalman_filter`: the code resets both
state variables to (0, 1) when either is NaN (`none`). -/
def priorEst (state_estimate estimate_covariance : Option ℚ) : ℚ :=
  match state_estimate, estimate_covariance with
  | some s, some _ => s
  | _, _ => 0

/-- Prior covariance actually used by `kalman_filter`: reset to 1 when either
state variable is NaN (`none`). -/
def priorCov (state_estimate estimate_covariance : Option ℚ) : ℚ :=
  match state_estimate, estimate_covariance with
  | some _, some c => c
  | _, _ => 1

/-- Embedding of `kalman_filter` (lines 21-31): NaN priors are reset to
(0, 1); then covariance += process noise, gain = cov / (cov + measurement
noise), estimate += gain * (data - estimate), cov = (1 - gain) * cov. -/
def kalman_filter (data process_noise measurement_noise : ℚ)
    (state_estimate estimate_covariance : Option ℚ) : ℚ × ℚ :=
  let s0 := priorEst state_estimate estimate_covariance
  let c0 := priorCov state_estimate estimate_covariance
  let c1 := c0 + process_noise
  let g := c1 / (c1 + measurement_noise)
  let s1 := s0 + g * (data - s0)
  let c2 := (1 - g) * c1
  (s1, c2)

/-- The spec's description of the Adaptive Filter, written from §4.1 of the
spec: reset on NaN, then the four update formulas, in order. -/
def kalmanSpec (observation pnoise mnoise : ℚ)
    (est cov : Option ℚ) : ℚ × ℚ :=
  let e0 : ℚ := if est.isNone || cov.isNone then 0 else est.getD 0
  let c0 : ℚ := if est.isNone || cov.isNone then 1 else cov.getD 1
  let cP := c0 + pnoise
  let gain := cP / (cP + mnoise)
  let eP := e0 + gain * (observation - e0)
  let cPP := (1 - gain) * cP
  (eP, cPP)

/-! ### Channel router, lines 213-229 -/

/-- Python strings are modelled as lists of characters. -/
abbrev Str := List Char

/-- Python `str.split()` with no argument: split on runs of whitespace,
dropping empty pieces. `acc` holds the current (reversed) token. -/
def splitWsAux : Str → Str → List Str
  | [], acc => if acc = [] then [] else [acc.reverse]
  | c :: rest, acc =>
    if c.isWhitespace then
      if acc = [] then splitWsAux rest []
      else acc.reverse :: splitWsAux rest []
    else splitWsAux rest (c :: acc)

/-- Python `str.split()` with no argument. -/
def splitWs (s : Str) : List Str := splitWsAux s []

/-- Remainder of `s` after the prefix `p`, or `none` when `p` is not a
prefix of `s`; models `str.startswith(p)` followed by slicing off `p`. -/
def dropPre : Str → Str → Option Str
  | [], s => some s
  | _, [] => none
  | a :: p, b :: s => if a = b then dropPre p s else none

/-- Decimal digit string to a natural number; `none` when empty or when a
non-digit occurs, since Python `int()` raises there. -/
def digitsToNat (s : Str) : Option Nat :=
  if s = [] then none
  else s.foldl (fun acc c =>
    acc.bind fun a => if c.isDigit then some (a * 10 + (c.toNat - 48)) else none)
    (some 0)

/-- Python `int()` on a split token: optional minus sign, then digits;
`none` models a `ValueError` (which aborts the whole cycle). -/
def strToInt (s : Str) : Option Int :=
  match s with
  | '-' :: rest => (digitsToNat rest).map fun n => -(n : Int)
  | _ => (digitsToNat s).map fun n => (n : Int)

/-- The character list of the literal prefix chan. -/
def cChan : Str := ['c', 'h', 'a', 'n']

/-- The character list of the literal prefix fft_chan. -/
def cFftChan : Str := ['f', 'f', 't', '_', 'c', 'h', 'a', 'n']

/-- Embedding of the token loop of lines 219-229: each token starting with
chan maps to `int(tok[4:]) - 1` if that lies in `[0, C)`, each remaining
token starting with fft_chan maps to `C + (int(tok[8:]) - 1)` under the same
range test on the raw index, and every other token is skipped. `none` models
an `int()` exception escaping the loop. -/
def routeTokens (C : Nat) : List Str → Option (List Nat)
  | [] => some []
  | tok :: rest =>
    match dropPre cChan tok with
    | some ds =>
      match strToInt ds with
      | none => none
      | some n =>
        let idx := n - 1
        let here := if 0 ≤ idx ∧ idx < (C : Int) then [idx.toNat] else []
        (routeTokens C rest).map fun l => here ++ l
    | none =>
      match dropPre cFftChan tok with
      | some ds =>
        match strToInt ds with
        | none => none
        | some n =>
          let idx := n - 1
          let here := if 0 ≤ idx ∧ idx < (C : Int) then [C + idx.toNat] else []
          (routeTokens C rest).map fun l => here ++ l
      | none => routeTokens C rest

/-- Embedding of lines 213-229: the wildcard selection yields
`range(total_channels)` where `total_channels = C + (C if fft_active else 0)`;
any other selection is split on whitespace and routed token by token. -/
def channelsToSend (sel : String) (C : Nat) (fft_active : Bool) : Option (List Nat) :=
  if sel = "*" then
    some (List.range (C + (if fft_active then C else 0)))
  else
    routeTokens C (splitWs sel.data)

/-! ### OSC emission loop, lines 231-241 -/

/-- Index into a 2-D buffer; indices produced by the claims are in range, so
the default only pads the type. -/
def getQ (buf : List (List ℚ)) (i j : Nat) : ℚ := (buf.getD i []).getD j 0

/-- Embedding of the message-building inner loop (lines 233-240): for each
routed channel, a raw index below `num_channels` contributes the resampled
value, an index at or above `num_channels` contributes the spectral value
only when the FFT is active and the spectral index is again below
`num_channels`; otherwise it contributes nothing. -/
def buildMessage (fft_active : Bool) (num_channels : Nat)
    (resampled fft_data : List (List ℚ)) (channels : List Nat)
    (sample_idx : Nat) : List ℚ :=
  channels.foldl (fun message chan =>
    if chan < num_channels then message ++ [getQ resampled chan sample_idx]
    else if fft_active then
      if chan - num_channels < num_channels then
        message ++ [getQ fft_data (chan - num_channels) sample_idx]
      else message
    else message) []

/-- The loop bound of line 232:
`min(num_samples, fft_num_samples if fft_active else num_samples)`. -/
def emitBound (fft_active : Bool) (num_samples fft_num_samples : Nat) : Nat :=
  min num_samples (if fft_active then fft_num_samples else num_samples)

/-- Embedding of the emission loop (lines 232-241): one message is sent per
sample index below the bound; the list holds the payloads in send order. -/
def emitted (fft_active : Bool) (num_channels : Nat)
    (resampled fft_data : List (List ℚ)) (channels : List Nat)
    (num_samples fft_num_samples : Nat) : List (List ℚ) :=
  (List.range (emitBound fft_active num_samples fft_num_samples)).map
    (buildMessage fft_active num_channels resampled fft_data channels)

/-! ### Housekeeping, lines 243-248 -/

/-- Embedding of lines 244-248: the cleanup fires when more than 60 seconds
passed since the persisted timestamp, and then the timestamp becomes the
current time. Returns (fired, new timestamp). -/
def housekeep (current_time last_cleanup_time : ℚ) : Bool × ℚ :=
  if current_time - last_cleanup_time > 60 then (true, current_time)
  else (false, last_cleanup_time)

/-- Firing times of the housekeeping action over a sequence of cycles whose
wall-clock times are `ts`, starting from persisted timestamp `last`. -/
def firingTimes (last : ℚ) : List ℚ → List ℚ
  | [] => []
  | t :: ts =>
    if t - last > 60 then t :: firingTimes t ts else firingTimes last ts

/-! ### Kalman filter state and the filter stage, lines 151-168 -/

/-- The persisted per-channel filter state: `kalman_state_estimates` and
`kalman_estimate_covariances`, kept as parallel lists. -/
structure KState where
  estimates : List ℚ
  covariances : List ℚ
  deriving DecidableEq, Repr

/-- Embedding of lines 152-155: when the persisted state is `None` it is
allocated as `np.full(num_channels, initial value)` for both arrays; note
the code performs this whether or not the filter is active. -/
def kalmanAlloc (st : Option KState) (num_channels : Nat)
    (initial_state_estimate initial_estimate_covariance : ℚ) : Option KState :=
  match st with
  | none => some ⟨List.replicate num_channels initial_state_estimate,
                  List.replicate num_channels initial_estimate_covariance⟩
  | some s => some s

/-- One channel of the filter loop (lines 160-168): fold sequentially over
the samples, threading (estimate, covariance) and replacing each sample with
the updated estimate. -/
def filterRow (process_noise measurement_noise : ℚ) :
    ℚ × ℚ → List ℚ → (ℚ × ℚ) × List ℚ
  | ec, [] => (ec, [])
  | ec, x :: xs =>
    let ec2 := kalman_filter x process_noise measurement_noise
      (some ec.1) (some ec.2)
    let r := filterRow process_noise measurement_noise ec2 xs
    (r.1, ec2.1 :: r.2)

/-- The filter loop over all channels (lines 159-168), channel by channel in
row-major order. -/
def applyFilter (process_noise measurement_noise : ℚ) :
    List (ℚ × ℚ) → List (List ℚ) → List (ℚ × ℚ) × List (List ℚ)
  | [], _ => ([], [])
  | _ :: _, [] => ([], [])
  | ec :: ecs, row :: rows =>
    let r1 := filterRow process_noise measurement_noise ec row
    let r2 := applyFilter process_noise measurement_noise ecs rows
    (r1.1 :: r2.1, r1.2 :: r2.2)

/-- Zip of the two state arrays, for threading through `applyFilter`. -/
def KState.pairs (s : KState) : List (ℚ × ℚ) := s.estimates.zip s.covariances

/-- Rebuild the state arrays from the threaded pairs. -/
def pairsToState (ps : List (ℚ × ℚ)) : KState :=
  ⟨ps.map Prod.fst, ps.map Prod.snd⟩

/-- Embedding of lines 151-168 as one stage: allocate the persisted state if
it is `None` (unconditionally), then run the filter loop only when
`filter_active`; returns the new persisted state and the sample buffer. -/
def kalmanCycle (filter_active : Bool) (st : Option KState)
    (num_channels : Nat) (initial_state_estimate initial_estimate_covariance : ℚ)
    (process_noise measurement_noise : ℚ) (eeg_data : List (List ℚ)) :
    Option KState × List (List ℚ) :=
  match kalmanAlloc st num_channels initial_state_estimate initial_estimate_covariance with
  | none => (none, eeg_data)
  | some s =>
    if filter_active then
      let r := applyFilter process_noise measurement_noise s.pairs eeg_data
      (some (pairsToState r.1), r.2)
    else (some s, eeg_data)

/-! ### Spectral stage, lines 181-185 -/

/-- Discrete Fourier transform of one row, length preserving; `ω` stands for
the twiddle factor `exp (-2 π i / N)` used by `np.fft.fft`, kept abstract in
a commutative ring so the definition stays executable. -/
def dftRow {R : Type} [CommRing R] (ω : R) (x : List R) : List R :=
  (List.range x.length).map fun k =>
    ((List.range x.length).map fun n => x.getD n 0 * ω ^ (k * n)).sum

/-- Embedding of line 183: `np.abs(np.fft.fft(eeg_data_resampled, axis=1))`,
row by row, with `mag` standing for the pointwise complex magnitude. -/
def fftStage {R S : Type} [CommRing R] (ω : R) (mag : R → S)
    (resampled : List (List R)) : List (List S) :=
  resampled.map fun row => (dftRow ω row).map mag

/-- Embedding of line 184: `fft_data.shape[1]`, the row length of the
spectral buffer. -/
def fftNumSamples {S : Type} (fft_data : List (List S)) : Nat :=
  (fft_data.getD 0 []).length

/-- Embedding of line 185: the slice `fft_data[:, :fft_num_samples]`. -/
def fftSliced {S : Type} (fft_data : List (List S)) : List (List S) :=
  fft_data.map (List.take (fftNumSamples fft_data))

/-! ### onCook control flow, lines 95-255 -/

/-- Which of the fallible calls of `onCook` raise in a given cycle. -/
structure FaultModel where
  boardCtorRaises : Bool
  prepareRaises : Bool
  streamRaises : Bool
  sinkCtorRaises : Bool
  bodyRaises : Bool
  deriving DecidableEq, Repr

/-- The persisted globals relevant to the init steps: whether `board` and
`osc_client` are set (not `None`). -/
structure HostState where
  board : Bool
  sink : Bool
  deriving DecidableEq, Repr

/-- How one `onCook` invocation ends. -/
inductive CookOutcome where
  /-- the cycle ran to the end of the try block -/
  | completed
  /-- the cycle returned early or its exception was caught and logged -/
  | aborted
  /-- an exception escaped `onCook` into the host -/
  | raised
  deriving DecidableEq, Repr

/-- Control-flow embedding of `onCook` (lines 95-255). Lines 110-119: when
`board` is `None`, the constructor, `prepare_session` and `start_stream` run
inside try/except; the global is assigned by the constructor, so a failure
in the two later calls leaves it assigned. Lines 121-126: the OSC client
constructor runs outside any handler. Lines 131-251: the body's exceptions
are caught. -/
def onCookModel (f : FaultModel) (s : HostState) : HostState × CookOutcome :=
  let board2 := s.board || !f.boardCtorRaises
  if !s.board && (f.boardCtorRaises || f.prepareRaises || f.streamRaises) then
    (⟨board2, s.sink⟩, .aborted)
  else
    if !s.sink && f.sinkCtorRaises then (⟨board2, s.sink⟩, .raised)
    else
      if f.bodyRaises then (⟨board2, true⟩, .aborted)
      else (⟨board2, true⟩, .completed)

/-! ### Helper lemmas -/

theorem dropPre_append (p : Str) : ∀ s : Str, dropPre p (p ++ s) = some s := by
  induction p with
  | nil => intro s; cases s <;> rfl
  | cons a p ih => intro s; simp [dropPre, ih]

theorem dropPre_chan_fft (ds : Str) : dropPre cChan (cFftChan ++ ds) = none := by
  simp [dropPre, cChan, cFftChan]

/-- Unrolling of the router on a well-formed chan token: the in-range test
`0 ≤ N - 1 < C` of the code is rephrased as `1 ≤ N ≤ C` as in the spec. -/
theorem routeTokens_chan_cons (C : Nat) (n : Int) (ds : Str) (rest : List Str)
    (h : strToInt ds = some n) :
    routeTokens C ((cChan ++ ds) :: rest)
      = (routeTokens C rest).map
          (fun l => (if 1 ≤ n ∧ n ≤ (C : Int) then [(n - 1).toNat] else []) ++ l) := by
  simp only [routeTokens, dropPre_append, h]
  simp only [show (0 ≤ n - 1 ∧ n - 1 < (C : Int)) ↔ (1 ≤ n ∧ n ≤ (C : Int)) from by omega]

/-- Unrolling of the router on a well-formed fft_chan token. -/
theorem routeTokens_fft_cons (C : Nat) (n : Int) (ds : Str) (rest : List Str)
    (h : strToInt ds = some n) :
    routeTokens C ((cFftChan ++ ds) :: rest)
      = (routeTokens C rest).map
          (fun l => (if 1 ≤ n ∧ n ≤ (C : Int) then [C + (n - 1).toNat] else []) ++ l) := by
  simp only [routeTokens, dropPre_chan_fft, dropPre_append, h]
  simp only [show (0 ≤ n - 1 ∧ n - 1 < (C : Int)) ↔ (1 ≤ n ∧ n ≤ (C : Int)) from by omega]

/-- With the FFT inactive, the message holds one value per routed channel
that is a raw index, and nothing for the others. -/
theorem buildMessage_false_len (C : Nat) (rs fd : List (List ℚ)) (i : Nat)
    (channels : List Nat) :
    (buildMessage false C rs fd channels i).length
      = (channels.filter (fun c => decide (c < C))).length := by
  have h : ∀ (cs : List Nat) (acc : List ℚ),
      (cs.foldl (fun message chan =>
        if chan < C then message ++ [getQ rs chan i] else message) acc).length
        = acc.length + (cs.filter (fun c => decide (c < C))).length := by
    intro cs
    induction cs with
    | nil => intro acc; simp
    | cons c cs ih =>
      intro acc
      by_cases hc : c < C
      · rw [List.foldl_cons, if_pos hc, ih, List.filter_cons]
        simp [hc]
        omega
      · rw [List.foldl_cons, if_neg hc, ih, List.filter_cons]
        simp [hc]
  simpa [buildMessage] using h channels []

theorem filter_length_lt (p : α → Bool) (l : List α) (x : α) (hx : x ∈ l)
    (hpx : p x = false) : (l.filter p).length < l.length := by
  induction l with
  | nil => cases hx
  | cons a l ih =>
    rcases List.mem_cons.mp hx with rfl | hmem
    · rw [List.filter_cons]
      simp only [hpx, List.length_cons]
      exact Nat.lt_succ_of_le (List.length_filter_le p l)
    · rw [List.filter_cons]
      by_cases hpa : p a = true
      · simp only [hpa, if_true, List.length_cons]
        exact Nat.succ_lt_succ (ih hmem)
      · simp only [hpa, if_false, List.length_cons]
        exact Nat.lt_succ_of_lt (ih hmem)

/-- Every housekeeping firing is more than 60 seconds after the persisted
timestamp, and pairwise firings are more than 60 seconds apart. -/
theorem firingTimes_sep (ts : List ℚ) : ∀ last : ℚ,
    (∀ x ∈ firingTimes last ts, last + 60 < x)
    ∧ (firingTimes last ts).Pairwise (fun a b => a + 60 < b) := by
  induction ts with
  | nil => intro last; simp [firingTimes]
  | cons t ts ih =>
    intro last
    by_cases h : t - last > 60
    · constructor
      · intro x hx
        simp only [firingTimes, if_pos h] at hx
        rcases List.mem_cons.mp hx with rfl | hx
        · linarith
        · have := (ih t).1 x hx; linarith
      · simp only [firingTimes, if_pos h]
        exact List.pairwise_cons.mpr ⟨fun x hx => (ih t).1 x hx, (ih t).2⟩
    · simpa only [firingTimes, if_neg h] using ih last

/-! ### Claim theorems -/

/-- C1: the Adaptive Filter returns exactly the pair given by the spec's
formulas (reset to (0, 1) on a NaN prior, then the four update equations),
and on the literal input (observation 5, process noise 1/10, measurement
noise 1, NaN priors) it returns the deterministic reset-formula output
(55/21, 11/21). -/
theorem kalman_filter_matches_spec :
    (∀ data pn mn est cov,
        kalman_filter data pn mn est cov = kalmanSpec data pn mn est cov)
    ∧ kalman_filter 5 (1 / 10) 1 none none = (55 / 21, 11 / 21) := by
  constructor
  · intro data pn mn est cov
    cases est <;> cases cov <;>
      simp [kalman_filter, kalmanSpec, priorEst, priorCov]
  · norm_num [kalman_filter, priorEst, priorCov]

/-- C2: a chan token with number N routes to N - 1 and an fft_chan token
with number N routes to C + N - 1 when 1 ≤ N ≤ C, is dropped otherwise, in
input order with duplicates preserved (the head contribution is prepended to
the routing of the remaining tokens); the example selection with C = 4
yields [1, 4], and the wildcard yields range C or range 2C according to the
spectral flag. -/
theorem router_maps_tokens :
    (∀ (C : Nat) (n : Int) (ds : Str) (rest : List Str),
        strToInt ds = some n →
        routeTokens C ((cChan ++ ds) :: rest)
          = (routeTokens C rest).map
              (fun l => (if 1 ≤ n ∧ n ≤ (C : Int) then [(n - 1).toNat] else []) ++ l))
    ∧ (∀ (C : Nat) (n : Int) (ds : Str) (rest : List Str),
        strToInt ds = some n →
        routeTokens C ((cFftChan ++ ds) :: rest)
          = (routeTokens C rest).map
              (fun l => (if 1 ≤ n ∧ n ≤ (C : Int) then [C + (n - 1).toNat] else []) ++ l))
    ∧ channelsToSend "chan2 fft_chan1 chan99" 4 false = some [1, 4]
    ∧ channelsToSend "chan2 fft_chan1 chan99" 4 true = some [1, 4]
    ∧ channelsToSend "*" 4 false = some [0, 1, 2, 3]
    ∧ channelsToSend "*" 4 true = some [0, 1, 2, 3, 4, 5, 6, 7] := by
  refine ⟨routeTokens_chan_cons, routeTokens_fft_cons, by decide, by decide,
    by decide, by decide⟩

/-- Witness for C2: the token chan2 with C = 4 routes to index 1, prepended
to the routing of the remaining (empty) token list. -/
theorem router_maps_tokens_witness :
    strToInt ['2'] = some 2
    ∧ routeTokens 4 [cChan ++ ['2']]
        = (routeTokens 4 []).map
            (fun l => (if 1 ≤ (2 : Int) ∧ (2 : Int) ≤ ((4 : Nat) : Int)
                then [((2 : Int) - 1).toNat] else []) ++ l) :=
  ⟨by decide, router_maps_tokens.1 4 2 ['2'] [] (by decide)⟩

/-- C3 counterexample: with the board already initialized and the OSC sink
not yet constructed, an exception in the sink constructor (lines 122-126,
outside every try/except) escapes `onCook` into the host, so it is false
that no exception raised during the cycle propagates out. -/
theorem onCook_sink_raise_cex :
    (onCookModel ⟨false, false, false, true, false⟩ ⟨true, false⟩).2
      = CookOutcome.raised := by decide

/-- C3 amended: an exception escapes `onCook` exactly when the device-init
phase did not abort the cycle, the sink is not yet constructed, and the sink
constructor raises; device-init exceptions and all exceptions of the
processing body are caught. -/
theorem onCook_raises_iff :
    ∀ a b c d e bd sk : Bool,
      ((onCookModel ⟨a, b, c, d, e⟩ ⟨bd, sk⟩).2 = CookOutcome.raised
        ↔ ((bd || !(a || b || c)) && !sk && d) = true) := by decide

/-- C4 counterexample: starting with no device session, when the session
constructor succeeds but `prepare_session` raises, the cycle is aborted yet
the persisted `board` variable has already been assigned (line 113 precedes
line 114), so it is false that the variable is left unset. -/
theorem board_partial_mutation_cex :
    (onCookModel ⟨false, true, false, false, false⟩ ⟨false, false⟩).2
      = CookOutcome.aborted
    ∧ (onCookModel ⟨false, true, false, false, false⟩ ⟨false, false⟩).1.board
      = true := by decide

/-- C4 amended: when no device session is active and opening one fails, the
cycle is aborted; the persisted `board` variable is left unset exactly when
the failure was in the constructor itself, and is left set (so later cycles
skip the open attempt instead of retrying) when the constructor succeeded
and `prepare_session` or `start_stream` failed; the sink variable is
untouched. -/
theorem board_open_failure_state :
    ∀ a b c d e sk : Bool, (a || b || c) = true →
      (onCookModel ⟨a, b, c, d, e⟩ ⟨false, sk⟩).2 = CookOutcome.aborted
      ∧ (onCookModel ⟨a, b, c, d, e⟩ ⟨false, sk⟩).1 = ⟨!a, sk⟩ := by decide

/-- Witness for C4 amended: a constructor failure aborts the cycle and
leaves both globals unset. -/
theorem board_open_failure_state_witness :
    (onCookModel ⟨true, false, false, false, false⟩ ⟨false, false⟩).2
      = CookOutcome.aborted
    ∧ (onCookModel ⟨true, false, false, false, false⟩ ⟨false, false⟩).1
      = ⟨false, false⟩ :=
  board_open_failure_state true false false false false false (by decide)

/-- C5 counterexample: with an empty routed selection but one output sample,
the emission loop still sends one message (with an empty payload), so it is
false that no messages are sent that cycle: line 241 runs once per sample
index regardless of the selection. -/
theorem emitted_empty_selection_cex :
    emitted false 1 [[3]] [] [] 1 1 = [[]]
    ∧ emitted false 1 [[3]] [] [] 1 1 ≠ [] := by
  constructor
  · rfl
  · simp [emitted, emitBound, buildMessage]

/-- C5 amended: with an empty routed selection the loop still emits one
message per sample index up to the loop bound, each with an empty payload
(no channel values are sent). -/
theorem emitted_empty_selection (fa : Bool) (C : Nat) (rs fd : List (List ℚ))
    (channels : List Nat) (ns fns : Nat) (h : channels = []) :
    (emitted fa C rs fd channels ns fns).length = emitBound fa ns fns
    ∧ ∀ m ∈ emitted fa C rs fd channels ns fns, m = [] := by
  subst h
  refine ⟨by simp [emitted], ?_⟩
  intro m hm
  rcases List.mem_map.mp hm with ⟨i, _, rfl⟩
  rfl

/-- Witness for C5 amended: one sample, empty selection, one empty message. -/
theorem emitted_empty_selection_witness :
    (emitted false 1 [[3]] [] [] 1 1).length = emitBound false 1 1
    ∧ ∀ m ∈ emitted false 1 [[3]] [] [] 1 1, m = [] :=
  emitted_empty_selection false 1 [[3]] [] [] 1 1 rfl

/-- C6 counterexample: the finite inputs observation 0, process noise 0,
measurement noise 1, prior estimate 0, prior covariance 0 give output
covariance 0, so it is false that the output covariance is strictly
positive for every finite input. -/
theorem kalman_cov_pos_cex :
    ¬ (0 < (kalman_filter 0 0 1 (some 0) (some 0)).2) := by
  norm_num [kalman_filter, priorEst, priorCov]

/-- C6 amended: for finite inputs whose measurement noise is positive and
whose (post-reset) prior covariance plus process noise is positive, the
output covariance is strictly positive (the estimate, a rational in this
embedding, is finite by construction). -/
theorem kalman_cov_pos (data pn mn : ℚ) (est cov : Option ℚ)
    (hm : 0 < mn) (hc : 0 < priorCov est cov + pn) :
    0 < (kalman_filter data pn mn est cov).2 := by
  have h1 : 0 < priorCov est cov + pn + mn := by linarith
  have h1n : priorCov est cov + pn + mn ≠ 0 := ne_of_gt h1
  have key : (kalman_filter data pn mn est cov).2
      = mn / (priorCov est cov + pn + mn) * (priorCov est cov + pn) := by
    simp only [kalman_filter]
    field_simp
  rw [key]
  exact mul_pos (div_pos hm h1) hc

/-- Witness for C6 amended: unit noise and unit prior covariance give a
positive output covariance. -/
theorem kalman_cov_pos_witness :
    0 < (kalman_filter 0 0 1 (some 0) (some 1)).2 :=
  kalman_cov_pos 0 0 1 (some 0) (some 1) (by norm_num) (by norm_num [priorCov])

/-- C7: whenever the housekeeping action fires, the persisted timestamp was
more than 60 seconds in the past and is updated to the current time; over
any sequence of cycles, any two firing times are more than 60 seconds
apart, so the action fires at most once per rolling 60-second window. -/
theorem housekeep_throttle :
    (∀ current last : ℚ, (housekeep current last).1 = true →
        current - last > 60 ∧ (housekeep current last).2 = current)
    ∧ ∀ (last : ℚ) (ts : List ℚ),
        (firingTimes last ts).Pairwise (fun a b => a + 60 < b) := by
  constructor
  · intro current last h
    by_cases hc : current - last > 60
    · exact ⟨hc, by simp [housekeep, hc]⟩
    · simp [housekeep, hc] at h
  · intro last ts
    exact (firingTimes_sep ts last).2

/-- Witness for C7: at time 100 with last pass at 0, the action fires,
more than 60 seconds have passed, and the timestamp becomes 100. -/
theorem housekeep_throttle_witness :
    (100 : ℚ) - 0 > 60 ∧ (housekeep 100 0).2 = 100 :=
  housekeep_throttle.1 100 0 (by norm_num [housekeep])

/-- C8 counterexample: in a cycle with the filter disabled and the filter
state not yet allocated, the state is allocated anyway (lines 152-155 are
not guarded by the filter flag), so it is false that the Filter State is
neither allocated nor mutated when the filter is disabled. -/
theorem filter_state_alloc_cex :
    (kalmanCycle false none 1 0 1 0 1 [[5]]).1
      = some ⟨List.replicate 1 0, List.replicate 1 1⟩
    ∧ (kalmanCycle false none 1 0 1 0 1 [[5]]).1 ≠ none := by
  refine ⟨rfl, by simp [kalmanCycle, kalmanAlloc]⟩

/-- C8 amended: the filter state is lazily allocated, sized to the channel
count, on the first data-bearing cycle regardless of the filter flag; in a
cycle with the filter disabled it is not otherwise mutated (an already
allocated state is returned unchanged) and the sample buffer is left
untouched. -/
theorem kalmanCycle_disabled (st : Option KState) (C : Nat) (iE iC pn mn : ℚ)
    (data : List (List ℚ)) :
    (kalmanCycle false st C iE iC pn mn data).1 = kalmanAlloc st C iE iC
    ∧ (kalmanCycle false st C iE iC pn mn data).2 = data
    ∧ ∀ s, st = some s → (kalmanCycle false st C iE iC pn mn data).1 = some s := by
  cases st <;> simp [kalmanCycle, kalmanAlloc]

/-- Witness for C8 amended: an already allocated state passes through a
disabled cycle unchanged. -/
theorem kalmanCycle_disabled_witness :
    (kalmanCycle false (some ⟨[2], [3]⟩) 1 0 1 0 1 [[5]]).1 = some ⟨[2], [3]⟩ :=
  (kalmanCycle_disabled (some ⟨[2], [3]⟩) 1 0 1 0 1 [[5]]).2.2 ⟨[2], [3]⟩ rfl

/-- C9: the spectral buffer is the per-channel magnitude of the DFT of the
resampled buffer; the slice of line 185 keeps it unchanged (no truncation to
the positive-frequency half), it has the same C × T shape as the resampled
buffer, and the emission bound min(T, spectral length) equals T. -/
theorem spectral_full_length {R S : Type} [CommRing R] (ω : R) (mag : R → S)
    (C T : Nat) (resampled : List (List R))
    (hC : resampled.length = C) (hT : ∀ row ∈ resampled, row.length = T)
    (h0 : 0 < C) :
    fftSliced (fftStage ω mag resampled) = fftStage ω mag resampled
    ∧ (fftStage ω mag resampled).length = C
    ∧ (∀ row ∈ fftStage ω mag resampled, row.length = T)
    ∧ emitBound true T (fftNumSamples (fftStage ω mag resampled)) = T := by
  have hrowlen : ∀ row : List R, ((dftRow ω row).map mag).length = row.length := by
    intro row; simp [dftRow]
  have hrows : ∀ row ∈ fftStage ω mag resampled, row.length = T := by
    intro row hr
    rcases List.mem_map.mp hr with ⟨r, hrmem, rfl⟩
    rw [hrowlen]; exact hT r hrmem
  have hfn : fftNumSamples (fftStage ω mag resampled) = T := by
    cases resampled with
    | nil => simp at hC; omega
    | cons r rs =>
      show (((dftRow ω r).map mag)).length = T
      rw [hrowlen]; exact hT r (List.mem_cons_self r rs)
  refine ⟨?_, by simp [fftStage, hC], hrows, by rw [hfn]; simp [emitBound]⟩
  unfold fftSliced
  rw [hfn]
  have htake : ∀ row ∈ fftStage ω mag resampled, row.take T = row := by
    intro row hr
    rw [← hrows row hr]
    exact List.take_length row
  calc (fftStage ω mag resampled).map (List.take T)
      = (fftStage ω mag resampled).map id := List.map_congr_left htake
    _ = fftStage ω mag resampled := List.map_id _

/-- Witness for C9: a one-channel, two-sample buffer over the integers with
ω = 1 and the identity magnitude. -/
theorem spectral_full_length_witness :
    fftSliced (fftStage (1 : Int) id [[1, 2]]) = fftStage (1 : Int) id [[1, 2]]
    ∧ (fftStage (1 : Int) id [[1, 2]]).length = 1
    ∧ (∀ row ∈ fftStage (1 : Int) id [[1, 2]], row.length = 2)
    ∧ emitBound true 2 (fftNumSamples (fftStage (1 : Int) id [[1, 2]])) = 2 :=
  spectral_full_length 1 id 1 2 [[1, 2]] (by decide) (by decide) (by decide)

/-- C10: with the spectral transform inactive, an in-range fft_chan token is
still routed to logical index C + N - 1 (lines 226-229 do not consult the
FFT flag), but during emission such an index contributes no value (line 237
requires the flag), so every built message is shorter than the routed
channel list. -/
theorem fft_token_inactive (C : Nat) (n : Int) (ds : Str) (rest : List Str)
    (sel : List Nat) (hds : strToInt ds = some n) (h1 : 1 ≤ n)
    (h2 : n ≤ (C : Int)) (hrest : routeTokens C rest = some sel) :
    routeTokens C ((cFftChan ++ ds) :: rest) = some ((C + (n - 1).toNat) :: sel)
    ∧ ∀ (resampled fft_data : List (List ℚ)) (i : Nat) (channels : List Nat),
        (C + (n - 1).toNat) ∈ channels →
        (buildMessage false C resampled fft_data channels i).length
          < channels.length := by
  constructor
  · rw [routeTokens_fft_cons C n ds rest hds, hrest]
    simp [h1, h2]
  · intro rs fd i channels hmem
    rw [buildMessage_false_len]
    refine filter_length_lt _ channels _ hmem ?_
    simp only [decide_eq_false_iff_not]
    omega

/-- Witness for C10: with C = 4 and the inactive FFT, the token fft_chan1
routes to index 4 and a message built over the routed list [4] is shorter
than that list. -/
theorem fft_token_inactive_witness :
    routeTokens 4 [cFftChan ++ ['1']] = some ((4 + ((1 : Int) - 1).toNat) :: [])
    ∧ (buildMessage false 4 [] [] [4 + ((1 : Int) - 1).toNat] 0).length
        < [4 + ((1 : Int) - 1).toNat].length :=
  ⟨(fft_token_inactive 4 1 ['1'] [] [] (by decide) (by decide) (by decide)
      (by decide)).1,
   (fft_token_inactive 4 1 ['1'] [] [] (by decide) (by decide) (by decide)
      (by decide)).2 [] [] 0 [4 + ((1 : Int) - 1).toNat] (by decide)⟩

end BrainFlowCHOP
